import Mathlib

/-!
Verification of the extraction orchestrator of `social-media-api`
(`src/social_media_extractor.py`, `src/main.py`), shallowly embedded in Lean.

Conventions of the embedding:
* Python dicts used as metric records become a structure whose thirteen
  fields are all `Option`-valued; a key missing from the dict is `none`.
  The `pandas.DataFrame` normalization step in `process_links`
  (adding missing columns as `None` and reordering columns) is therefore
  the identity in this model.
* A platform fetch collaborator (`fetch_x_metrics`, ...) is modelled as a
  function from the attempt number to an outcome: either a returned record
  (`FetchOutcome.ret`) or a raised exception carrying its message
  (`FetchOutcome.exn`).  The attempt index determinizes the collaborator's
  side effects.
* Python strings are Lean `String`s; `.lower()` is per-character
  `Char.toLower` (the URLs and error messages involved are ASCII), and the
  `in` substring test is an explicit search over character lists.
* `time.sleep` durations and `random.random()` draws are modelled as
  explicit rational quantities returned to / supplied by the caller;
  wall-clock time is a rational parameter.
-/

/-- `leadsWith needle hay` is true when `needle` is an initial segment of
`hay`. -/
def leadsWith : List Char → List Char → Bool
  | [], _ => true
  | _ :: _, [] => false
  | a :: as, b :: bs => a == b && leadsWith as bs

/-- `occursInL needle hay` models the Python substring test
`needle in hay` on character lists. -/
def occursInL (needle : List Char) : List Char → Bool
  | [] => leadsWith needle []
  | c :: t => leadsWith needle (c :: t) || occursInL needle t

/-- Python's `s.lower()` as a character list (ASCII case folding). -/
def lowerChars (s : String) : List Char := s.toList.map Char.toLower

/-- The canonical metric record: a Python dict with any subset of the
thirteen standard keys.  A missing key is `none`. -/
structure MetricRecord where
  date : Option String := none
  url : Option String := none
  author : Option String := none
  content : Option String := none
  followers : Option Int := none
  views : Option Int := none
  likes : Option Int := none
  comments : Option Int := none
  saves : Option Int := none
  shares : Option Int := none
  reposts : Option Int := none
  platform : Option String := none
  error : Option String := none
  deriving Repr, DecidableEq

/-- Per-platform rate-limit configuration (`RATE_LIMIT_CONFIG` entries). -/
structure RateConfig where
  requests_per_minute : Nat
  delay_between_requests : ℚ
  batch_size : Nat
  max_retries : Nat
  deriving Repr, DecidableEq

/-- `RATE_LIMIT_CONFIG.get(platform, RATE_LIMIT_CONFIG['default'])` from
`social_media_extractor.py` lines 33-64. -/
def RATE_LIMIT_CONFIG (platform : String) : RateConfig :=
  if platform == "x" then ⟨50, 12/10, 25, 2⟩
  else if platform == "instagram" then ⟨30, 25/10, 15, 3⟩
  else if platform == "youtube" then ⟨100, 5/10, 50, 2⟩
  else if platform == "tiktok" then ⟨40, 15/10, 30, 2⟩
  else ⟨60, 1, 40, 2⟩

/-- One invocation of a fetch collaborator either returns a record or
raises an exception with a message. -/
inductive FetchOutcome where
  | ret (r : MetricRecord)
  | exn (msg : String)
  deriving Repr, DecidableEq

/-- A platform fetch collaborator: platform name and url select the
operation, the `Nat` is the attempt index determinizing its behaviour. -/
def Fetcher : Type := String → String → Nat → FetchOutcome

/-- The quota-marker scan of `safe_api_call`: case-insensitive substring
match for "rate limit", "too many requests", "quota", "limit exceeded". -/
def isRateLimitError (msg : String) : Bool :=
  let m := lowerChars msg
  occursInL "rate limit".toList m || occursInL "too many requests".toList m ||
    occursInL "quota".toList m || occursInL "limit exceeded".toList m

/-- `result.get('error') and any(keyword in result['error'].lower() ...)`:
the error key must be present and truthy (non-empty) and contain a
quota marker. -/
def resultHasRateLimit (r : MetricRecord) : Bool :=
  match r.error with
  | some e => !(e == "") && isRateLimitError e
  | none => false

/-- Whether one collaborator outcome is a quota-classified failure, in
either mode (returned error-bearing record, or raised exception). -/
def isQuotaOutcome : FetchOutcome → Bool
  | .ret r => resultHasRateLimit r
  | .exn e => isRateLimitError e

/-- The body of `safe_api_call`'s `for attempt in range(max_retries + 1)`
loop (lines 129-159), iterated over the list of remaining attempt indices.
Returns the produced record together with the number of collaborator
invocations performed.  An exhausted list is the loop running off its end
(line 159). -/
def attemptLoop (platform url : String) (f : Nat → FetchOutcome)
    (maxRetries : Nat) : List Nat → MetricRecord × Nat
  | [] =>
    ({ url := some url,
       error := some ("Max retries (" ++ toString maxRetries ++ ") exceeded"),
       platform := some platform }, 0)
  | attempt :: rest =>
    match f attempt with
    | .ret r =>
      if resultHasRateLimit r && decide (attempt < maxRetries) then
        let next := attemptLoop platform url f maxRetries rest
        (next.1, next.2 + 1)
      else
        (r, 1)
    | .exn e =>
      if isRateLimitError e then
        if attempt < maxRetries then
          let next := attemptLoop platform url f maxRetries rest
          (next.1, next.2 + 1)
        else
          ({ url := some url,
             error := some ("Rate limit exceeded after " ++ toString maxRetries
               ++ " retries"),
             platform := some platform }, 1)
      else
        ({ url := some url, error := some e, platform := some platform }, 1)

/-- `safe_api_call(platform, api_function, url, max_retries)`
(lines 124-159), with the rate-limit sleeps abstracted away.  The second
component counts collaborator invocations. -/
def safe_api_call (platform : String) (f : Nat → FetchOutcome) (url : String)
    (maxRetries : Nat) : MetricRecord × Nat :=
  attemptLoop platform url f maxRetries (List.range (maxRetries + 1))

/-- `detect_platform` (lines 233-248). -/
def detect_platform (url : String) : String :=
  let url_lower := lowerChars url
  if occursInL "twitter.com".toList url_lower || occursInL "x.com".toList url_lower then "x"
  else if occursInL "youtube.com".toList url_lower || occursInL "youtu.be".toList url_lower then "youtube"
  else if occursInL "tiktok.com".toList url_lower then "tiktok"
  else if occursInL "stockbit.com".toList url_lower then "stockbit"
  else if occursInL "instagram.com".toList url_lower then "instagram"
  else if occursInL "linkedin.com".toList url_lower then "linkedin"
  else "unknown"

/-- The record built for URLs of unknown platform, both in
`process_links` (lines 1033-1038) and `extract_single`
(`main.py` lines 107-112). -/
def unsupportedRecord (url : String) : MetricRecord :=
  { date := none, url := some url, author := none, content := none,
    followers := none, views := none, likes := none, comments := none,
    saves := none, shares := none, reposts := none,
    platform := some "unknown", error := some "Unsupported platform" }

/-- The keys of the `processors` dict of `process_links`
(lines 1011-1018); `extract_single` uses the same keys. -/
def processorPlatforms : List String :=
  ["x", "youtube", "tiktok", "stockbit", "instagram", "linkedin"]

/-- One iteration of the dispatch loop of `process_links`
(lines 1027-1038): classify the URL and either run the platform's fetch
through `safe_api_call` or build the unsupported-platform record.  The
second component counts collaborator invocations for this URL. -/
def processOne (fetch : Fetcher) (url : String) : MetricRecord × Nat :=
  let platform := detect_platform url
  if processorPlatforms.contains platform then
    safe_api_call platform (fetch platform url) url
      (RATE_LIMIT_CONFIG platform).max_retries
  else
    (unsupportedRecord url, 0)

/-- One `platform_stats` entry: `{total, success, errors}`. -/
structure PlatformStat where
  total : Nat
  success : Nat
  errors : Nat
  deriving Repr, DecidableEq

/-- Distinct elements of a list, first occurrence first; `seen` is the
accumulator of keys already emitted. -/
def uniqAux : List String → List String → List String
  | [], _ => []
  | x :: xs, seen =>
    if seen.contains x then uniqAux xs seen else x :: uniqAux xs (x :: seen)

/-- Distinct elements of a list, first occurrence first. -/
def uniqKeys (l : List String) : List String := uniqAux l []

/-- The summary statistics of `process_links` (lines 1064-1073):
`value_counts` over the `platform` column (null platforms are dropped)
and, per platform value, the count of rows whose `error` is non-null.
`value_counts` orders keys by descending count; the claims do not
concern entry order, so first-occurrence order is used here. -/
def computeSummary (rs : List MetricRecord) : List (String × PlatformStat) :=
  (uniqKeys (rs.filterMap (fun r => r.platform))).map fun p =>
    let total := rs.countP (fun r => r.platform == some p)
    let errs := rs.countP (fun r => r.platform == some p && r.error.isSome)
    (p, ⟨total, total - errs, errs⟩)

/-- The `summary` object of the batch response (lines 1075-1082). -/
structure BatchSummary where
  total_processed : Nat
  platform_stats : List (String × PlatformStat)
  rate_limiting_applied : Bool
  deriving Repr, DecidableEq

/-- `process_links(links)` (lines 986-1082).  An empty input returns the
`{"error": "No links provided"}` dict, modelled as `Except.error`.  The
DataFrame normalization (add missing columns as null, reorder) is the
identity on `MetricRecord`, whose fields are all optional. -/
def process_links (fetch : Fetcher) (links : List String) :
    Except String (List MetricRecord × BatchSummary) :=
  if links.isEmpty then .error "No links provided"
  else
    let results := links.map (fun url => (processOne fetch url).1)
    .ok (results, ⟨results.length, computeSummary results, true⟩)

/-- The results sequence of a batch response (empty on the rejected
empty-input case). -/
def resultsOf (o : Except String (List MetricRecord × BatchSummary)) :
    List MetricRecord :=
  match o with
  | .ok x => x.1
  | .error _ => []

instance {ε α : Type} [DecidableEq ε] [DecidableEq α] :
    DecidableEq (Except ε α) := fun x y =>
  match x, y with
  | .ok a, .ok b =>
    if h : a = b then isTrue (by rw [h])
    else isFalse (by intro hc; cases hc; exact h rfl)
  | .error a, .error b =>
    if h : a = b then isTrue (by rw [h])
    else isFalse (by intro hc; cases hc; exact h rfl)
  | .ok _, .error _ => isFalse (by intro hc; cases hc)
  | .error _, .ok _ => isFalse (by intro hc; cases hc)

/-- The single-URL entry point `extract_single` (`main.py` lines 77-119),
reduced to its record-producing core (lines 93-112): classify, then call
the platform's fetch collaborator directly — not through `safe_api_call`.
An exception propagates to the route's handler and becomes an
internal-server-error response (`Except.error`).  The second component
counts collaborator invocations. -/
def extract_single (fetch : Fetcher) (url : String) :
    Except String MetricRecord × Nat :=
  let platform := detect_platform url
  if processorPlatforms.contains platform then
    match fetch platform url 0 with
    | .ret r => (.ok r, 1)
    | .exn e => (.error ("Internal server error: " ++ e), 1)
  else
    (.ok (unsupportedRecord url), 0)

/-- The observable effect of one `rate_limit_delay` call: the timestamp
list after eviction, the sleep taken when the window is full, the
timestamp list left in `self.request_timestamps[platform]`, and the
jittered inter-request delay. -/
structure RateLimitStep where
  kept : List ℚ
  waitBeforeAdmit : ℚ
  newTimestamps : List ℚ
  postDelay : ℚ
  deriving Repr, DecidableEq

/-- `rate_limit_delay(platform)` (lines 100-122) as a pure state step:
`timestamps` is the platform's current `request_timestamps` list, `now`
is `time.time()`, `U` is the `random.random()` draw in `[0,1)`. -/
def rate_limit_delay (platform : String) (timestamps : List ℚ) (now U : ℚ) :
    RateLimitStep :=
  let config := RATE_LIMIT_CONFIG platform
  let kept := timestamps.filter (fun ts => now - ts < 60)
  let wait : ℚ :=
    if config.requests_per_minute ≤ kept.length then
      60 - (now - kept.headD 0) + 1
    else 0
  { kept := kept, waitBeforeAdmit := wait, newTimestamps := kept ++ [now],
    postDelay := config.delay_between_requests * (8/10 + 4/10 * U) }

/-! ### Helper lemmas about the retrying executor -/

/-- The record produced when the retry ceiling is exhausted on a raised
quota error. -/
def rateLimitExhaustedRecord (platform url : String) (maxRetries : Nat) :
    MetricRecord :=
  { url := some url,
    error := some ("Rate limit exceeded after " ++ toString maxRetries
      ++ " retries"),
    platform := some platform }

theorem attemptLoop_all_quota (platform url : String) (f : Nat → FetchOutcome)
    (m : Nat) :
    ∀ n s, s + n = m → (∀ k, s ≤ k → k ≤ m → isQuotaOutcome (f k) = true) →
      attemptLoop platform url f m (List.range' s (n + 1)) =
        (match f m with
         | .ret r => (r, n + 1)
         | .exn _ => (rateLimitExhaustedRecord platform url m, n + 1)) := by
  intro n
  induction n with
  | zero =>
    intro s hs hq
    subst hs
    simp only [Nat.add_zero] at *
    rw [List.range'_succ]
    simp only [List.range'_zero]
    have hqs := hq s le_rfl le_rfl
    unfold attemptLoop
    cases hf : f s with
    | ret r =>
      rw [hf] at hqs
      simp only [isQuotaOutcome] at hqs
      simp [hqs, rateLimitExhaustedRecord]
    | exn e =>
      rw [hf] at hqs
      simp only [isQuotaOutcome] at hqs
      simp [hqs, rateLimitExhaustedRecord]
  | succ n ih =>
    intro s hs hq
    have hsm : s < m := by omega
    have hqs := hq s le_rfl (Nat.le_of_lt hsm)
    rw [List.range'_succ]
    unfold attemptLoop
    cases hf : f s with
    | ret r =>
      rw [hf] at hqs
      simp only [isQuotaOutcome] at hqs
      have hrec := ih (s + 1) (by omega) (fun k hk1 hk2 => hq k (by omega) hk2)
      simp [hqs, hsm, hrec]
      cases f m <;> simp
    | exn e =>
      rw [hf] at hqs
      simp only [isQuotaOutcome] at hqs
      have hrec := ih (s + 1) (by omega) (fun k hk1 hk2 => hq k (by omega) hk2)
      simp [hqs, hsm, hrec]
      cases f m <;> simp

theorem attemptLoop_quota_prefix_success (platform url : String)
    (f : Nat → FetchOutcome) (m : Nat) (r : MetricRecord)
    (hm : f m = .ret r) (hr : resultHasRateLimit r = false) :
    ∀ n s, s + n = m → (∀ k, s ≤ k → k < m → isQuotaOutcome (f k) = true) →
      attemptLoop platform url f m (List.range' s (n + 1)) = (r, n + 1) := by
  intro n
  induction n with
  | zero =>
    intro s hs _
    subst hs
    simp only [Nat.add_zero] at *
    rw [List.range'_succ]
    unfold attemptLoop
    simp [hm, hr]
  | succ n ih =>
    intro s hs hq
    have hsm : s < m := by omega
    have hqs := hq s le_rfl hsm
    rw [List.range'_succ]
    unfold attemptLoop
    cases hf : f s with
    | ret r' =>
      rw [hf] at hqs
      simp only [isQuotaOutcome] at hqs
      have hrec := ih (s + 1) (by omega) (fun k hk1 hk2 => hq k (by omega) hk2)
      simp [hqs, hsm, hrec]
    | exn e =>
      rw [hf] at hqs
      simp only [isQuotaOutcome] at hqs
      have hrec := ih (s + 1) (by omega) (fun k hk1 hk2 => hq k (by omega) hk2)
      simp [hqs, hsm, hrec]

theorem safe_api_call_eq_loop (platform url : String) (f : Nat → FetchOutcome)
    (m : Nat) :
    safe_api_call platform f url m =
      attemptLoop platform url f m (0 :: List.range' 1 m) := by
  unfold safe_api_call
  rw [List.range_eq_range', List.range'_succ]

theorem attemptLoop_url (platform url : String) (f : Nat → FetchOutcome)
    (m : Nat) (hu : ∀ k r, f k = .ret r → r.url = some url) :
    ∀ l, (attemptLoop platform url f m l).1.url = some url := by
  intro l
  induction l with
  | nil => rfl
  | cons attempt rest ih =>
    unfold attemptLoop
    cases hf : f attempt with
    | ret r =>
      by_cases hc : (resultHasRateLimit r && decide (attempt < m)) = true
      · simp [hc, ih]
      · simp [hc, hu attempt r hf]
    | exn e =>
      by_cases hq : isRateLimitError e = true
      · by_cases ha : attempt < m
        · simp [hq, ha, ih]
        · simp [hq, ha]
      · simp [hq]

theorem attemptLoop_platform (platform url : String) (f : Nat → FetchOutcome)
    (m : Nat) (hp : ∀ k r, f k = .ret r → r.platform.isSome = true) :
    ∀ l, (attemptLoop platform url f m l).1.platform.isSome = true := by
  intro l
  induction l with
  | nil => rfl
  | cons attempt rest ih =>
    unfold attemptLoop
    cases hf : f attempt with
    | ret r =>
      by_cases hc : (resultHasRateLimit r && decide (attempt < m)) = true
      · simp [hc, ih]
      · simp [hc, hp attempt r hf]
    | exn e =>
      by_cases hq : isRateLimitError e = true
      · by_cases ha : attempt < m
        · simp [hq, ha, ih]
        · simp [hq, ha]
      · simp [hq]

/-! ### Helper lemmas about the batch orchestrator and the normalizer -/

theorem processOne_url (fetch : Fetcher) (url : String)
    (hu : ∀ p u k r, fetch p u k = .ret r → r.url = some u) :
    (processOne fetch url).1.url = some url := by
  unfold processOne
  by_cases hc : processorPlatforms.contains (detect_platform url) = true
  · simp only [hc, if_true]
    exact attemptLoop_url _ _ _ _ (fun k r h => hu _ _ _ _ h) _
  · simp only [hc, if_false, Bool.false_eq_true, ite_false]
    rfl

theorem processOne_platform (fetch : Fetcher) (url : String)
    (hp : ∀ p u k r, fetch p u k = .ret r → r.platform.isSome = true) :
    (processOne fetch url).1.platform.isSome = true := by
  unfold processOne
  by_cases hc : processorPlatforms.contains (detect_platform url) = true
  · simp only [hc, if_true]
    exact attemptLoop_platform _ _ _ _ (fun k r h => hp _ _ _ _ h) _
  · simp only [hc, if_false, Bool.false_eq_true, ite_false]
    rfl

theorem process_links_ok (fetch : Fetcher) (links : List String)
    (hne : links ≠ []) :
    process_links fetch links =
      .ok (links.map (fun url => (processOne fetch url).1),
        ⟨(links.map (fun url => (processOne fetch url).1)).length,
         computeSummary (links.map (fun url => (processOne fetch url).1)),
         true⟩) := by
  have hne' : links.isEmpty = false := by
    cases links with
    | nil => exact absurd rfl hne
    | cons a l => rfl
  simp [process_links, hne']

theorem mem_uniqAux (y : String) :
    ∀ (xs seen : List String), y ∈ uniqAux xs seen ↔ y ∈ xs ∧ y ∉ seen := by
  intro xs
  induction xs with
  | nil => intro seen; simp [uniqAux]
  | cons x xs ih =>
    intro seen
    unfold uniqAux
    by_cases hx : seen.contains x = true
    · have hxseen : x ∈ seen := by simpa using hx
      rw [if_pos hx, ih]
      constructor
      · rintro ⟨h1, h2⟩; exact ⟨List.mem_cons_of_mem _ h1, h2⟩
      · rintro ⟨h1, h2⟩
        rcases List.mem_cons.mp h1 with h | h
        · exact absurd (h ▸ hxseen) h2
        · exact ⟨h, h2⟩
    · have hxseen : x ∉ seen := by simpa using hx
      rw [if_neg hx]
      simp only [List.mem_cons, ih]
      constructor
      · rintro (h | ⟨h1, h2⟩)
        · exact ⟨Or.inl h, h ▸ hxseen⟩
        · exact ⟨Or.inr h1, fun hc => h2 (Or.inr hc)⟩
      · rintro ⟨h1 | h1, h2⟩
        · exact Or.inl h1
        · by_cases hyx : y = x
          · exact Or.inl hyx
          · exact Or.inr ⟨h1, fun hc => hc.elim hyx h2⟩

theorem mem_uniqKeys (y : String) (l : List String) :
    y ∈ uniqKeys l ↔ y ∈ l := by
  unfold uniqKeys
  rw [mem_uniqAux]
  simp

theorem lookup_map_pairing {α : Type} (f : String → α) (p : String) :
    ∀ l : List String, p ∈ l →
      List.lookup p (l.map fun q => (q, f q)) = some (f p) := by
  intro l
  induction l with
  | nil => intro h; exact absurd h (List.not_mem_nil p)
  | cons q l ih =>
    intro hp
    simp only [List.map_cons, List.lookup]
    by_cases hq : p = q
    · subst hq; simp
    · have hbeq : (p == q) = false := by simpa using hq
      rw [hbeq]
      exact ih ((List.mem_cons.mp hp).resolve_left hq)

theorem computeSummary_lookup (rs : List MetricRecord) (p : String)
    (h : some p ∈ rs.map (fun r => r.platform)) :
    (computeSummary rs).lookup p = some
      ⟨rs.countP (fun r => r.platform == some p),
       rs.countP (fun r => r.platform == some p) -
         rs.countP (fun r => r.platform == some p && r.error.isSome),
       rs.countP (fun r => r.platform == some p && r.error.isSome)⟩ := by
  have hp : p ∈ uniqKeys (rs.filterMap fun r => r.platform) := by
    rw [mem_uniqKeys, List.mem_filterMap]
    rcases List.mem_map.mp h with ⟨r, hr, hpr⟩
    exact ⟨r, hr, hpr⟩
  exact lookup_map_pairing
    (fun q => (⟨rs.countP (fun r => r.platform == some q),
       rs.countP (fun r => r.platform == some q) -
         rs.countP (fun r => r.platform == some q && r.error.isSome),
       rs.countP (fun r => r.platform == some q && r.error.isSome)⟩ :
         PlatformStat))
    p _ hp

/-! ### Helper lemmas about the rate limiter -/

theorem cfg_rpm_pos (platform : String) :
    0 < (RATE_LIMIT_CONFIG platform).requests_per_minute := by
  unfold RATE_LIMIT_CONFIG
  repeat' split
  all_goals decide

theorem sorted_replicate (n : Nat) (x : ℚ) :
    List.Sorted (· ≤ ·) (List.replicate n x) := by
  induction n with
  | zero => simp
  | succ n ih =>
    rw [List.replicate_succ, List.sorted_cons]
    exact ⟨fun b hb => (List.eq_of_mem_replicate hb).ge, ih⟩

/-! ### The spec-side classifier, for the refinement comparison -/

/-- The ordered domain-fragment table of spec §4.1.  Within a group the
fragments are alternatives; group order is the match order. -/
def platformTable : List (List String × String) :=
  [(["twitter.com", "x.com"], "x"),
   (["youtube.com", "youtu.be"], "youtube"),
   (["tiktok.com"], "tiktok"),
   (["stockbit.com"], "stockbit"),
   (["instagram.com"], "instagram"),
   (["linkedin.com"], "linkedin")]

/-- First table group with a matching fragment wins; no match is
"unknown". -/
def lookupTable : List (List String × String) → List Char → String
  | [], _ => "unknown"
  | (frags, name) :: rest, u =>
    if frags.any (fun frag => occursInL frag.toList u) then name
    else lookupTable rest u

/-- The classifier as the spec words it (§4.1): lowercase the URL, scan
the fragment table in its fixed order, first match wins, otherwise
"unknown".  Stated from the spec's words for comparison with
`detect_platform`, which is translated from the code. -/
def classify_spec (url : String) : String :=
  lookupTable platformTable (lowerChars url)

/-! ### Concrete collaborators used by counterexamples and witnesses -/

/-- `fetch_x_metrics` when `'x_api' not in DRIVERS`
(`social_media_extractor.py` lines 267-269): it returns a dict holding
only an error message — no `url`, no `platform` key. -/
def xUnconfiguredFetch : Fetcher :=
  fun _ _ _ => .ret { error := some "X/Twitter not configured" }

/-- A well-behaved collaborator that echoes the request url and its
platform and always succeeds. -/
def urlEchoFetch : Fetcher :=
  fun p u _ => .ret { url := some u, platform := some p }

/-- A collaborator whose first attempt returns a quota-marker error
record and whose later attempts succeed. -/
def retryThenOkFetch : Fetcher := fun _p u k =>
  if k = 0 then
    .ret { url := some u, error := some "Rate limit exceeded",
           platform := some "x" }
  else
    .ret { url := some u, platform := some "x", likes := some 5 }

/-- A collaborator that always returns (never raises) a record whose
error carries a quota marker. -/
def alwaysQuotaRetFetch : Fetcher := fun _p u _k =>
  .ret { url := some u, error := some "rate limit", platform := some "x" }

/-- Attempt-indexed outcomes: a returned quota-error record, then a
raised quota exception, then success. -/
def retryWitnessF : Nat → FetchOutcome := fun k =>
  if k = 0 then
    .ret { url := some "u", error := some "rate limit hit",
           platform := some "x" }
  else if k = 1 then .exn "HTTP 429 Too Many Requests"
  else .ret { url := some "u", platform := some "x", likes := some 3 }

/-- Attempt-indexed outcomes, all quota-classified, the last one raised. -/
def exhaustWitnessF : Nat → FetchOutcome := fun k =>
  if k = 2 then .exn "rate limit"
  else .ret { url := some "u", error := some "API quota exhausted",
              platform := some "x" }

/-- A collaborator returning a permanent (non-quota) error record. -/
def notFoundF : Nat → FetchOutcome := fun _ =>
  .ret { url := some "u", error := some "Tweet not returned",
         platform := some "x" }

/-! ### Claim theorems -/

/-- C1 (counterexample): with the repository's own X collaborator in its
unconfigured state, the single record of a one-URL batch has a null
`url` field, not the input URL: the claim's per-index url equality
fails. -/
theorem process_links_url_counterexample :
    (resultsOf (process_links xUnconfiguredFetch
        ["https://x.com/u/status/1"])).map (fun r => r.url) = [none] ∧
    ([none] : List (Option String)) ≠ [some "https://x.com/u/status/1"] := by
  decide

/-- C1 (amended): for every non-empty batch the orchestrator returns one
record per input URL in input order, and `results[i].url = urls[i]`
provided every record the collaborators return carries the request url
(the records built by the executor's own error paths and by the
unknown-platform path always do). -/
theorem process_links_order (fetch : Fetcher) (links : List String)
    (hne : links ≠ [])
    (hu : ∀ p u k r, fetch p u k = .ret r → r.url = some u) :
    ∃ rs summ, process_links fetch links = .ok (rs, summ) ∧
      rs.length = links.length ∧
      rs.map (fun r => r.url) = links.map some := by
  refine ⟨_, _, process_links_ok fetch links hne, List.length_map _ _, ?_⟩
  rw [List.map_map]
  exact List.map_congr_left fun u _ => processOne_url fetch u hu

/-- C1 (witness): a concrete one-URL batch with a well-behaved
collaborator. -/
theorem process_links_order_witness :
    ∃ rs summ,
      process_links urlEchoFetch ["https://x.com/u/status/7"] =
        .ok (rs, summ) ∧
      rs.length = ["https://x.com/u/status/7"].length ∧
      rs.map (fun r => r.url) = ["https://x.com/u/status/7"].map some :=
  process_links_order urlEchoFetch ["https://x.com/u/status/7"]
    (by decide)
    (by intro p u k r h
        simp only [urlEchoFetch, FetchOutcome.ret.injEq] at h
        rw [← h])

/-- C2: the retrying executor (a) returns the successful result after
exactly `max_retries + 1` collaborator invocations when the first
`max_retries` attempts fail with quota-classified errors (in either
mode) and the last attempt succeeds, and (b, c) performs exactly one
invocation and surfaces the failure immediately when the error does not
carry a quota marker, whether returned or raised. -/
theorem safe_api_call_retry_policy (platform url : String)
    (f : Nat → FetchOutcome) (m : Nat) :
    (∀ r, (∀ k, k < m → isQuotaOutcome (f k) = true) → f m = .ret r →
       r.error = none → safe_api_call platform f url m = (r, m + 1)) ∧
    (∀ r e, f 0 = .ret r → r.error = some e → isRateLimitError e = false →
       safe_api_call platform f url m = (r, 1)) ∧
    (∀ e, f 0 = .exn e → isRateLimitError e = false →
       safe_api_call platform f url m =
         ({ url := some url, error := some e, platform := some platform },
           1)) := by
  refine ⟨?_, ?_, ?_⟩
  · intro r hq hm herr
    have hr : resultHasRateLimit r = false := by
      simp [resultHasRateLimit, herr]
    have h := attemptLoop_quota_prefix_success platform url f m r hm hr m 0
      (by omega) (fun k _ hk => hq k hk)
    unfold safe_api_call
    rw [List.range_eq_range']
    exact h
  · intro r e h0 herr hql
    rw [safe_api_call_eq_loop]
    unfold attemptLoop
    simp [h0, resultHasRateLimit, herr, hql]
  · intro e h0 hql
    rw [safe_api_call_eq_loop]
    unfold attemptLoop
    simp [h0, hql]

/-- C2 (witness): with `max_retries = 2`, a returned quota error, then a
raised quota exception, then success: three invocations, successful
record returned. -/
theorem safe_api_call_retry_policy_witness :
    safe_api_call "x" retryWitnessF "u" 2 =
      ({ url := some "u", platform := some "x", likes := some 3 }, 3) :=
  (safe_api_call_retry_policy "x" "u" retryWitnessF 2).1
    { url := some "u", platform := some "x", likes := some 3 }
    (by decide) (by decide) (by decide)

/-- C3 (counterexample): a collaborator that always *returns* a
quota-error record: after exhausting the x ceiling (`max_retries = 2`)
the executor returns the collaborator's own record with error
`"rate limit"`, not `"Rate limit exceeded after 2 retries"`. -/
theorem safe_api_call_exhaustion_counterexample :
    (processOne alwaysQuotaRetFetch "https://x.com/u/status/5").1.error =
      some "rate limit" ∧
    (processOne alwaysQuotaRetFetch "https://x.com/u/status/5").2 = 3 ∧
    (RATE_LIMIT_CONFIG "x").max_retries = 2 ∧
    some "rate limit" ≠
      (rateLimitExhaustedRecord "x" "https://x.com/u/status/5" 2).error := by
  refine ⟨by decide, by decide, by decide, by decide⟩

/-- C3 (amended): when every attempt fails quota-classified, the
executor exhausts the ceiling after `N + 1` invocations; if the final
attempt *raised* its error, the result is the record with error
`"Rate limit exceeded after N retries"`, but if the final attempt
*returned* its error record, that record is passed through with its
original error text. -/
theorem safe_api_call_exhaustion (platform url : String)
    (f : Nat → FetchOutcome) (m : Nat)
    (hq : ∀ k, k ≤ m → isQuotaOutcome (f k) = true) :
    (∀ e, f m = .exn e → safe_api_call platform f url m =
        (rateLimitExhaustedRecord platform url m, m + 1)) ∧
    (∀ r, f m = .ret r → safe_api_call platform f url m = (r, m + 1)) := by
  have h := attemptLoop_all_quota platform url f m m 0 (by omega)
    (fun k _ hk => hq k hk)
  unfold safe_api_call
  rw [List.range_eq_range']
  constructor
  · intro e he; rw [h, he]
  · intro r hr; rw [h, hr]

/-- C3 (witness): all three attempts quota-classified with the last one
raised: the exhaustion record with the `"Rate limit exceeded after 2
retries"` message is produced, after 3 invocations. -/
theorem safe_api_call_exhaustion_witness :
    safe_api_call "x" exhaustWitnessF "u" 2 =
      (rateLimitExhaustedRecord "x" "u" 2, 3) :=
  (safe_api_call_exhaustion "x" "u" exhaustWitnessF 2 (by decide)).1
    "rate limit" (by decide)

/-- C4 (counterexample): a collaborator whose first attempt returns a
quota-marker error and whose retry succeeds.  The one-element batch path
retries and yields the successful record; the single-URL entry point
returns the quota-error record after a single invocation — the two
paths are not the same. -/
theorem extract_single_counterexample :
    extract_single retryThenOkFetch "https://x.com/u/status/9" =
      (.ok { url := some "https://x.com/u/status/9",
             error := some "Rate limit exceeded", platform := some "x" },
        1) ∧
    resultsOf (process_links retryThenOkFetch ["https://x.com/u/status/9"]) =
      [{ url := some "https://x.com/u/status/9", platform := some "x",
         likes := some 5 }] ∧
    ({ url := some "https://x.com/u/status/9",
       error := some "Rate limit exceeded",
       platform := some "x" } : MetricRecord) ≠
      { url := some "https://x.com/u/status/9", platform := some "x",
        likes := some 5 } := by
  decide

/-- C4 (amended): the single-URL entry point classifies the URL and, for
known platforms, invokes the platform's fetch collaborator directly and
exactly once — with no retrying executor and no rate-limit gating; a
raised error becomes an internal-server-error response instead of a
MetricRecord.  Only the unknown-platform record matches the batch
path. -/
theorem extract_single_direct (fetch : Fetcher) (url : String) :
    (detect_platform url = "unknown" →
      extract_single fetch url = (.ok (unsupportedRecord url), 0)) ∧
    (processorPlatforms.contains (detect_platform url) = true →
      (extract_single fetch url).2 = 1 ∧
      (∀ r, fetch (detect_platform url) url 0 = .ret r →
        (extract_single fetch url).1 = .ok r) ∧
      (∀ e, fetch (detect_platform url) url 0 = .exn e →
        (extract_single fetch url).1 =
          .error ("Internal server error: " ++ e))) := by
  constructor
  · intro h
    have hm : "unknown" ∉ processorPlatforms := by decide
    simp [extract_single, h, hm]
  · intro hc
    unfold extract_single
    simp only [hc, if_true]
    refine ⟨?_, ?_, ?_⟩
    · cases hf : fetch (detect_platform url) url 0 <;> simp [hf]
    · intro r hf; simp [hf]
    · intro e hf; simp [hf]

/-- C4 (witness): for a known platform the single-URL path performs
exactly one collaborator invocation. -/
theorem extract_single_direct_witness :
    (extract_single urlEchoFetch "https://x.com/u/status/7").2 = 1 :=
  ((extract_single_direct urlEchoFetch "https://x.com/u/status/7").2
    (by decide)).1

/-- C5 (counterexample): the unconfigured-X record passes through the
batch pipeline with both `url` and `platform` null, so not every record
of a batch response carries those fields. -/
theorem metric_record_presence_counterexample :
    (resultsOf (process_links xUnconfiguredFetch
        ["https://x.com/u/status/1"])).map (fun r => (r.url, r.platform)) =
      [(none, none)] ∧
    ((none, none) : Option String × Option String) ≠
      (some "https://x.com/u/status/1", some "x") := by
  decide

/-- C5 (amended): every record of a batch response has non-null `url`
and `platform` provided every record the collaborators return carries
the request url and a platform; the records the orchestrator and the
executor build themselves (unknown platform, raised errors, retry
exhaustion) always do. -/
theorem metric_record_presence (fetch : Fetcher) (links : List String)
    (hne : links ≠ [])
    (hup : ∀ p u k r, fetch p u k = .ret r →
      r.url = some u ∧ r.platform.isSome = true) :
    ∃ rs summ, process_links fetch links = .ok (rs, summ) ∧
      ∀ r ∈ rs, r.url.isSome = true ∧ r.platform.isSome = true := by
  refine ⟨_, _, process_links_ok fetch links hne, ?_⟩
  intro r hr
  rcases List.mem_map.mp hr with ⟨u, _, hru⟩
  subst hru
  constructor
  · rw [processOne_url fetch u (fun p u' k r' h => (hup p u' k r' h).1)]
    rfl
  · exact processOne_platform fetch u (fun p u' k r' h => (hup p u' k r' h).2)

/-- C5 (witness): a concrete batch with a collaborator that sets both
fields. -/
theorem metric_record_presence_witness :
    ∃ rs summ,
      process_links urlEchoFetch ["https://x.com/u/status/7"] =
        .ok (rs, summ) ∧
      ∀ r ∈ rs, r.url.isSome = true ∧ r.platform.isSome = true :=
  metric_record_presence urlEchoFetch ["https://x.com/u/status/7"]
    (by decide)
    (by intro p u k r h
        simp only [urlEchoFetch, FetchOutcome.ret.injEq] at h
        rw [← h]
        exact ⟨rfl, rfl⟩)

/-- C7: a URL classified "unknown" receives, at its own batch position,
exactly the record with `error = "Unsupported platform"`,
`platform = "unknown"`, its own url, and every metric field null — and
no fetch is performed for it (zero collaborator invocations). -/
theorem unsupported_platform_record (fetch : Fetcher) (links : List String)
    (i : Nat) (hne : links ≠ []) (hi : i < links.length)
    (hu : detect_platform links[i] = "unknown") :
    ∃ rs summ, process_links fetch links = .ok (rs, summ) ∧
      rs[i]? = some
        { date := none, url := some links[i], author := none, content := none,
          followers := none, views := none, likes := none, comments := none,
          saves := none, shares := none, reposts := none,
          platform := some "unknown", error := some "Unsupported platform" } ∧
      (processOne fetch links[i]).2 = 0 := by
  refine ⟨_, _, process_links_ok fetch links hne, ?_, ?_⟩
  · have hm : "unknown" ∉ processorPlatforms := by decide
    rw [List.getElem?_map, List.getElem?_eq_getElem hi]
    simp [processOne, hu, hm, unsupportedRecord]
  · have hm : "unknown" ∉ processorPlatforms := by decide
    simp [processOne, hu, hm]

/-- C7 (witness): a concrete unknown-platform URL. -/
theorem unsupported_platform_record_witness :
    ∃ rs summ,
      process_links urlEchoFetch ["https://example.org/a"] = .ok (rs, summ) ∧
      rs[0]? = some
        { date := none, url := some "https://example.org/a", author := none,
          content := none, followers := none, views := none, likes := none,
          comments := none, saves := none, shares := none, reposts := none,
          platform := some "unknown",
          error := some "Unsupported platform" } ∧
      (processOne urlEchoFetch "https://example.org/a").2 = 0 :=
  unsupported_platform_record urlEchoFetch ["https://example.org/a"] 0
    (by decide) (by decide) (by decide)

/-- C6: one admission call (a) keeps exactly the timestamps inside the
trailing 60-second window, (b) records the new timestamp after the kept
ones, (c) imposes the jittered inter-request delay
`base_delay * (0.8 + 0.4*U)`, and (d) when the ceiling is reached, the
caller is suspended until exactly the moment the oldest kept timestamp
leaves the window plus the 1-second safety margin — so the over-ceiling
call is never granted before the oldest timestamp falls outside the
window. -/
theorem rate_limiter_window (platform : String) (ts : List ℚ) (now U : ℚ)
    (hsort : List.Sorted (· ≤ ·) ts) :
    (∀ t : ℚ,
      t ∈ (rate_limit_delay platform ts now U).kept ↔
        t ∈ ts ∧ now - t < 60) ∧
    (rate_limit_delay platform ts now U).newTimestamps =
      (rate_limit_delay platform ts now U).kept ++ [now] ∧
    (rate_limit_delay platform ts now U).postDelay =
      (RATE_LIMIT_CONFIG platform).delay_between_requests *
        (8/10 + 4/10 * U) ∧
    ((RATE_LIMIT_CONFIG platform).requests_per_minute ≤
        (rate_limit_delay platform ts now U).kept.length →
      ∃ t0, t0 ∈ (rate_limit_delay platform ts now U).kept ∧
        (∀ t ∈ (rate_limit_delay platform ts now U).kept, t0 ≤ t) ∧
        now + (rate_limit_delay platform ts now U).waitBeforeAdmit =
          (t0 + 60) + 1) := by
  refine ⟨?_, rfl, rfl, ?_⟩
  · intro t
    simp [rate_limit_delay, List.mem_filter]
  · intro hle
    have hkeq : (rate_limit_delay platform ts now U).kept =
        ts.filter (fun t => decide (now - t < 60)) := rfl
    have hlen : 0 < (rate_limit_delay platform ts now U).kept.length :=
      lt_of_lt_of_le (cfg_rpm_pos platform) hle
    cases hk : (rate_limit_delay platform ts now U).kept with
    | nil => rw [hk] at hlen; simp at hlen
    | cons t0 rest =>
      have hsorted : List.Sorted (· ≤ ·)
          (rate_limit_delay platform ts now U).kept := by
        rw [hkeq]; exact hsort.filter _
      rw [hk] at hsorted
      have hmin : ∀ t ∈ rest, t0 ≤ t := (List.sorted_cons.mp hsorted).1
      refine ⟨t0, List.mem_cons_self t0 rest, ?_, ?_⟩
      · intro t ht
        rcases List.mem_cons.mp ht with h | h
        · exact h ▸ le_refl t0
        · exact hmin t h
      · have hwait : (rate_limit_delay platform ts now U).waitBeforeAdmit =
            60 - (now - (rate_limit_delay platform ts now U).kept.headD 0)
              + 1 := by
          have : (rate_limit_delay platform ts now U).waitBeforeAdmit =
              if (RATE_LIMIT_CONFIG platform).requests_per_minute ≤
                  (rate_limit_delay platform ts now U).kept.length then
                60 - (now -
                  (rate_limit_delay platform ts now U).kept.headD 0) + 1
              else 0 := rfl
          rw [this, if_pos hle]
        rw [hwait, hk]
        simp only [List.headD_cons]
        ring

/-- C6 (witness): the x window holding 50 timestamps at its ceiling. -/
theorem rate_limiter_window_witness :
    (rate_limit_delay "x" (List.replicate 50 0) 1 (1/2)).newTimestamps =
      (rate_limit_delay "x" (List.replicate 50 0) 1 (1/2)).kept ++ [1] :=
  (rate_limiter_window "x" (List.replicate 50 0) 1 (1/2)
    (sorted_replicate 50 0)).2.1

/-- C8: for every platform value observed in the completed records, the
batch summary's entry is `{total, success, errors}` with `total` the
number of records carrying that platform, `errors` the number of those
whose error is non-null, and `success = total - errors`. -/
theorem batch_summary_stats (fetch : Fetcher) (links : List String)
    (p : String) (hne : links ≠ [])
    (hp : some p ∈ (resultsOf (process_links fetch links)).map
      (fun r => r.platform)) :
    ∃ rs summ, process_links fetch links = .ok (rs, summ) ∧
      summ.platform_stats.lookup p = some
        ⟨rs.countP (fun r => r.platform == some p),
         rs.countP (fun r => r.platform == some p) -
           rs.countP (fun r => r.platform == some p && r.error.isSome),
         rs.countP (fun r => r.platform == some p && r.error.isSome)⟩ := by
  refine ⟨_, _, process_links_ok fetch links hne, ?_⟩
  apply computeSummary_lookup
  rw [process_links_ok fetch links hne] at hp
  exact hp

/-- C8 (witness): a one-URL x batch; the "x" entry is
`{total := 1, success := 1, errors := 0}`. -/
theorem batch_summary_stats_witness :
    ∃ rs summ,
      process_links urlEchoFetch ["https://x.com/u/status/7"] =
        .ok (rs, summ) ∧
      summ.platform_stats.lookup "x" = some
        ⟨rs.countP (fun r => r.platform == some "x"),
         rs.countP (fun r => r.platform == some "x") -
           rs.countP (fun r => r.platform == some "x" && r.error.isSome),
         rs.countP (fun r => r.platform == some "x" && r.error.isSome)⟩ :=
  batch_summary_stats urlEchoFetch ["https://x.com/u/status/7"] "x"
    (by decide) (by decide)

/-- C9: the classifier agrees everywhere with the spec-worded
first-match table scan (lowercasing, substring containment, fixed
fragment order, "unknown" default); any URL containing "twitter.com" or
"x.com" — in any letter case — classifies as "x" even when later
fragments also occur; and the result is always one of the seven
platform kinds. -/
theorem detect_platform_spec (url : String) :
    detect_platform url = classify_spec url ∧
    ((occursInL "twitter.com".toList (lowerChars url) ||
        occursInL "x.com".toList (lowerChars url)) = true →
      detect_platform url = "x") ∧
    detect_platform url ∈
      ["x", "youtube", "tiktok", "stockbit", "instagram", "linkedin",
       "unknown"] := by
  refine ⟨?_, ?_, ?_⟩
  · simp only [detect_platform, classify_spec, platformTable, lookupTable,
      List.any_cons, List.any_nil, Bool.or_false]
  · intro h
    simp only [detect_platform, h, if_true]
  · simp only [detect_platform]
    repeat' split
    all_goals decide

/-- C9 (witness): uppercase "TWITTER.com" with a later "youtube.com"
fragment still classifies as "x". -/
theorem detect_platform_spec_witness :
    detect_platform "https://TWITTER.com/a/status/9?ref=youtube.com" =
      "x" :=
  (detect_platform_spec "https://TWITTER.com/a/status/9?ref=youtube.com").2.1
    (by decide)

/-- C10: a collaborator result that is returned (not raised) and whose
error field is absent or carries no quota marker passes through the
executor verbatim on the first attempt: the very record is returned,
after exactly one invocation. -/
theorem safe_api_call_passthrough (platform url : String)
    (f : Nat → FetchOutcome) (m : Nat) (r : MetricRecord)
    (h0 : f 0 = .ret r)
    (h : r.error = none ∨
      ∃ e, r.error = some e ∧ isRateLimitError e = false) :
    safe_api_call platform f url m = (r, 1) := by
  have hr : resultHasRateLimit r = false := by
    rcases h with h | ⟨e, he, hql⟩
    · simp [resultHasRateLimit, h]
    · simp [resultHasRateLimit, he, hql]
  rw [safe_api_call_eq_loop]
  unfold attemptLoop
  simp [h0, hr]

/-- C10 (witness): the permanent error record "Tweet not returned"
passes through unchanged after one invocation. -/
theorem safe_api_call_passthrough_witness :
    safe_api_call "x" notFoundF "u" 2 =
      ({ url := some "u", error := some "Tweet not returned",
         platform := some "x" }, 1) :=
  safe_api_call_passthrough "x" "u" notFoundF 2
    { url := some "u", error := some "Tweet not returned",
      platform := some "x" }
    (by decide) (Or.inr ⟨"Tweet not returned", rfl, by decide⟩)
